import Mathlib

/-!
# Verification of the deep-BSDE solver (`DNN Portfolio Optimization/solver.py`)

A shallow embedding of the `dBSDE` model class: tensors become lists of rows
of rationals, the TensorFlow/Keras numeric kernels that the spec declares
out of scope (the neural network's internals, the autodiff/optimizer
primitive, dataset iteration) become abstract function fields or oracle
parameters, and everything else — the forward time-stepping recursion
(`call`), the loss computation of `train_step`/`test_step`, the epoch loop
of `custom_fit`, and the patience policies `lr_schedule`/`early_stop` — is
translated statement by statement from the Python source.
-/

/- Core marks the rational arithmetic operations `[irreducible]`, which stops
`decide`/`rfl` from evaluating the embedding on concrete inputs; restore the
default reducibility so concrete runs reduce. -/
attribute [local semireducible] Rat.add Rat.sub Rat.mul Rat.inv

/-- A row vector: one row of a 2-d tensor, entries as exact rationals. -/
abbrev Vec : Type := List ℚ

/-- A 2-d tensor `[rows, cols]` as a list of rows. -/
abbrev Mat : Type := List Vec

/-- Dot product of two rows (used by `tf.matmul`). -/
def dot (a b : Vec) : ℚ := (List.zipWith (· * ·) a b).sum

/-- Transpose of a matrix (empty on an empty matrix). -/
def matTranspose (a : Mat) : Mat :=
  match a with
  | [] => []
  | r :: _ => (List.range r.length).map (fun j => a.map (fun row => row.getD j 0))

/-- Matrix multiplication `tf.matmul` on 2-d tensors. -/
def matMul (a b : Mat) : Mat :=
  a.map (fun r => (matTranspose b).map (fun c => dot r c))

/-- Divide every entry of a matrix by a scalar (`tensor / self.dimz`). -/
def matDivNat (a : Mat) (n : ℕ) : Mat := a.map (fun r => r.map (· / (n : ℚ)))

/-- Column means over the batch dimension, `tf.reduce_mean(a, axis=0)`. -/
def colMean (a : Mat) : Vec :=
  match a with
  | [] => []
  | r :: rs => (rs.foldl (fun acc v => List.zipWith (· + ·) acc v) r).map
      (· / ((rs.length + 1 : ℕ) : ℚ))

/-- Mean over all entries, `tf.reduce_mean(a)` (used on the `[batch, 1]` value tensor). -/
def matMean (a : Mat) : ℚ :=
  ((a.map (fun (r : Vec) => r.sum)).sum) / ((a.map (fun (r : Vec) => r.length)).sum : ℕ)

/-- The feature tensor `tf.concat([x, time, y], axis=1)` built row by row from the
state batch, the broadcast scalar time and the value batch. -/
def featuresOf (x : Mat) (time : ℚ) (y : Mat) : Mat :=
  List.zipWith (fun (xr yr : Vec) => xr ++ ([time] : Vec) ++ yr) x y

/-- The external `equation`/`bsde` collaborator (spec §6): problem constants and
the problem-specific transition/terminal functions, all opaque to the core.
`next_y` takes the (broadcast) scalar time, the state batch, the value batch,
the control batch, the noise-increment slice, the optional clamps `lb`/`ub` and
the `zdx` flag, returning the new value batch and the control-direction batch
`pi`. `z_T_matmul_sigma_x` is the optional diagnostic fast path; its invocation
may fail, which we model with `Except`. -/
structure Equation where
  dim : ℕ
  dimx : ℕ
  num_time_interval : ℕ
  total_time : ℚ
  delta_t : ℚ
  x_init : Vec
  psi : ℚ
  gamma : ℚ
  next_x : Mat → Mat → Mat
  next_y : ℚ → Mat → Mat → Mat → Mat → Option ℚ → Option ℚ → Bool → Mat × Mat
  g_tf : ℚ → Mat → Mat
  sigma_x : Mat → Mat
  z_T_matmul_sigma_x : Mat → Mat → Except String Vec

/-- The recorded trajectory `self.hist` (a dict of per-step lists in the source,
keys `"x"`, `"y"`, `"z"`, `"t"`, `"pi"`; each append stores a batch mean). -/
structure Hist where
  x : List Vec
  y : List ℚ
  z : List Vec
  t : List ℚ
  pi : List Vec
deriving DecidableEq

/-- The empty history dict (`self.hist = {}` of `__init__`, line 50). -/
def Hist.empty : Hist := ⟨[], [], [], [], []⟩

/-- A `tf.keras.metrics.Mean` running average: a total and a count;
`update_state(v)` adds the entries of `v`, `result()` divides. -/
structure MeanMetric where
  total : ℚ
  count : ℕ

/-- Running-mean update `Mean.update_state` on a vector of per-sample losses. -/
def MeanMetric.update (mm : MeanMetric) (v : Vec) : MeanMetric :=
  ⟨mm.total + v.sum, mm.count + v.length⟩

/-- Running-mean readout `Mean.result()`. -/
def MeanMetric.result (mm : MeanMetric) : ℚ := mm.total / (mm.count : ℚ)

/-- Running-mean reset `Mean.reset_states()`. -/
def MeanMetric.reset (_ : MeanMetric) : MeanMetric := ⟨0, 0⟩

/-- The `dBSDE` model object (`solver.py`, lines 11-50). The neural network
`self.nn_z` (a BatchNormalization + Dense/ELU stack, lines 40-49) is an
out-of-scope numeric kernel and appears as an abstract batch transform
`nn_z : Mat → Mat`. `optimizer_lr` is the learning rate stored inside the
Adam optimizer built at line 38; `lr` is the separate `self.lr` attribute.
The patience counters are `self._loss_patience_cnt` / `self._stop_patience_cnt`. -/
structure DBSDE where
  bsde : Equation
  dimw : ℕ
  dimx : ℕ
  lb : Option ℚ
  ub : Option ℚ
  num_time_interval : ℕ
  total_time : ℚ
  delta_t : ℚ
  zdx : Bool
  dimz : ℕ
  x0 : Vec
  y0 : ℚ
  separate_z0 : Bool
  dimz0 : ℕ
  z0 : Mat
  train_loss : MeanMetric
  test_loss : MeanMetric
  lr : ℚ
  loss_patience_cnt : ℕ
  stop_patience_cnt : ℕ
  optimizer_lr : ℚ
  nn_z : Mat → Mat
  hist : Hist

/-- The constructor `dBSDE.__init__` (lines 12-50): records the problem constants, chooses
`dimz` from the `zdx` flag, zero-initialises the `[1, dimz]` control parameter,
sets `self.lr = 0.01`, zeroes both patience counters, and constructs the Adam
optimizer with `learning_rate=self.lr` (line 38), which fixes `optimizer_lr`
to the then-current value of `lr`. -/
def dBSDE_init (equation : Equation) (y0 : ℚ) (zdx : Bool) (separate_z0 : Bool)
    (lb ub : Option ℚ) (nn : Mat → Mat) : DBSDE :=
  let dimz := if zdx then equation.dimx else equation.dim
  { bsde := equation
    dimw := equation.dim
    dimx := equation.dimx
    lb := lb
    ub := ub
    num_time_interval := equation.num_time_interval
    total_time := equation.total_time
    delta_t := equation.delta_t
    zdx := zdx
    dimz := dimz
    x0 := equation.x_init
    y0 := y0
    separate_z0 := separate_z0
    dimz0 := dimz
    z0 := [List.replicate dimz (0 : ℚ)]
    train_loss := ⟨0, 0⟩
    test_loss := ⟨0, 0⟩
    lr := 1/100
    loss_patience_cnt := 0
    stop_patience_cnt := 0
    optimizer_lr := 1/100
    nn_z := nn
    hist := Hist.empty }

/-- The running state of the forward loop of `call`: the current state batch,
value batch, the last control batch computed inside the loop (`none` until the
loop body has run once — in Python `z` is a local name first bound inside the
loop), the pending noise increment, and the history being recorded. -/
structure StepState where
  x : Mat
  y : Mat
  z : Option Mat
  dw : Mat
  hist : Hist

/-- One iteration of the forward loop of `call` (lines 87-101), at time index
`t`: advance the state with the noise increment consumed by the previous value
update, build the feature tensor, query the approximator (normalised by
`dimz`), load the next noise slice, advance the value, and append the batch
means to the history when recording. -/
def callStep (bsde : Equation) (nn : Mat → Mat) (dimz : ℕ) (delta_t : ℚ)
    (lb ub : Option ℚ) (zdx : Bool) (dwSample : List Mat) (test : Bool)
    (st : StepState) (t : ℕ) : StepState :=
  let time : ℚ := (t : ℚ) * delta_t
  let x := bsde.next_x st.x st.dw
  let features := featuresOf x time st.y
  let z := matDivNat (nn features) dimz
  let dw := dwSample.getD t []
  let yp := bsde.next_y time x st.y z dw lb ub zdx
  let hist :=
    if test then
      { st.hist with
        x := st.hist.x ++ [colMean x]
        y := st.hist.y ++ [matMean yp.1]
        z := st.hist.z ++ [colMean z]
        pi := st.hist.pi ++ [colMean yp.2]
        t := st.hist.t ++ [time] }
    else st.hist
  ⟨x, yp.1, some z, dw, hist⟩

/-- The forward pass `dBSDE.call` (lines 52-103). The raw input tensor has already been reshaped
into the per-interval noise slices `dwSample` (so `dwSample.getD t []` is
`dw_sample[:, :, t]`) with `batchSize` rows each. Recording is controlled by
the `test` flag exactly as in the source (the `record` parameter of the Python
signature is never read). Returns the updated model object (the coupled-mode
`z0` snapshot of line 71 and the recorded `hist`) together with
`some (y, x, z)` — or `none` when the loop never ran, in which case the Python
`return y, x, z` raises `UnboundLocalError` because `z` was never bound. -/
def DBSDE.call (m : DBSDE) (dwSample : List Mat) (batchSize : ℕ) (test : Bool) :
    DBSDE × Option (Mat × Mat × Mat) :=
  let x := List.replicate batchSize m.x0
  let y := List.replicate batchSize ([m.y0] : Vec)
  let z0m : Mat × DBSDE :=
    if m.separate_z0 then
      (List.replicate batchSize (m.z0.headD ([] : Vec)), m)
    else
      let features := featuresOf x 0 y
      let z0 := matDivNat (m.nn_z features) m.dimz
      (z0, { m with z0 := [z0.headD ([] : Vec)] })
  let z0 := z0m.1
  let m' := z0m.2
  let dw := dwSample.getD 0 []
  let current_time : ℚ := 0
  let hist0 : Hist :=
    if test then
      { x := [colMean x], y := [matMean y], z := [colMean z0],
        t := [current_time], pi := [] }
    else m'.hist
  let yp := m.bsde.next_y current_time x y z0 dw m.lb m.ub m.zdx
  let hist1 : Hist :=
    if test then
      { hist0 with y := hist0.y ++ [matMean yp.1], pi := hist0.pi ++ [colMean yp.2] }
    else hist0
  let final := (List.range' 1 (m.num_time_interval - 1)).foldl
    (callStep m.bsde m.nn_z m.dimz m.delta_t m.lb m.ub m.zdx dwSample test)
    ⟨x, yp.1, none, dw, hist1⟩
  let xN := m.bsde.next_x final.x final.dw
  ({ m' with hist := final.hist },
    final.z.map (fun z => (final.y, xN, z)))

/-- Per-row squared-error loss `tf.keras.losses.mean_squared_error(y_true, y_pred)`: mean of the
squared entrywise differences, one scalar per batch row. -/
def mean_squared_error (y_true y_pred : Mat) : Vec :=
  List.zipWith
    (fun (tr pr : Vec) =>
      ((List.zipWith (fun a b => (a - b) * (a - b)) tr pr).sum) / ((tr.length : ℕ) : ℚ))
    y_true y_pred

/-- The training step `dBSDE.train_step` (lines 105-113): a forward pass without recording, the
terminal loss `mean_squared_error(g_tf(0, pred), pred)`, and one optimizer
step. Gradient computation and the Adam update (lines 111-112) are the
out-of-scope autodiff primitive (spec §1); what the embedding keeps is the
learning rate that update applies — the one stored in the optimizer at
construction — returned as the third component. The per-sample losses are
accumulated into the running train-loss mean. Returns `none` for the loss when
the forward pass raised (propagating the exception). -/
def DBSDE.train_step (m : DBSDE) (dwSample : List Mat) (batchSize : ℕ) :
    DBSDE × Option Vec × ℚ :=
  let cr := m.call dwSample batchSize false
  match cr.2 with
  | none => (cr.1, none, m.optimizer_lr)
  | some r =>
      let pred_value := r.1
      let true_value := m.bsde.g_tf 0 pred_value
      let loss := mean_squared_error true_value pred_value
      ({ cr.1 with train_loss := cr.1.train_loss.update loss }, some loss,
        m.optimizer_lr)

/-- The test step `dBSDE.test_step` (lines 115-120): the same forward/loss computation with
recording enabled (`test=True`) and no gradient computation or parameter
update; accumulates into the running test-loss mean. -/
def DBSDE.test_step (m : DBSDE) (dwSample : List Mat) (batchSize : ℕ) :
    DBSDE × Option Vec :=
  let cr := m.call dwSample batchSize true
  match cr.2 with
  | none => (cr.1, none)
  | some r =>
      let pred_value := r.1
      let true_value := m.bsde.g_tf 0 pred_value
      let loss := mean_squared_error true_value pred_value
      ({ cr.1 with test_loss := cr.1.test_loss.update loss }, some loss)

/-- Squeeze of a `[1, n]` tensor (`tf.squeeze`): the single row. -/
def squeezeRow (a : Mat) : Vec := a.headD ([] : Vec)

/-- The per-epoch `z0` diagnostic conversion of `custom_fit` (lines 154-163):
in `zdx` mode with a `z0` of width `dimx`, try the problem-specific
`z_T_matmul_sigma_x`; if its invocation fails, fall back to the generic
product `tf.squeeze(tf.matmul(tf.expand_dims(z0, 0), sigma_x))` (the
`expand_dims`/`squeeze` pair only shuffles the singleton batch rank, so the
net effect is the `[1, dimz] × [dimx, dimx]` product's single row); otherwise
just squeeze the raw parameter. -/
def DBSDE.reshape_z0 (m : DBSDE) : Vec :=
  if m.zdx ∧ (m.z0.headD ([] : Vec)).length = m.dimx then
    let sigma_x := m.bsde.sigma_x [m.x0]
    match m.bsde.z_T_matmul_sigma_x m.z0 sigma_x with
    | Except.ok v => v
    | Except.error _ => squeezeRow (matMul m.z0 sigma_x)
  else squeezeRow m.z0

/-- The decay policy `dBSDE.lr_schedule` (lines 197-203, defaults `patience=3`,
`min_delta=0.05`): if at least two losses exist and the relative change of the
last step is below `min_delta`, increment the loss-patience counter, else
reset it to 0; then, if the counter exceeds `patience`, halve `self.lr`
floored at `1e-6`. -/
def DBSDE.lr_schedule (m : DBSDE) (hist_loss : List ℚ) (patience : ℕ)
    (min_delta : ℚ) : DBSDE :=
  let m1 :=
    if 1 < hist_loss.length ∧
        |hist_loss.getD (hist_loss.length - 2) 0 -
            hist_loss.getD (hist_loss.length - 1) 0| /
          hist_loss.getD (hist_loss.length - 2) 0 < min_delta then
      { m with loss_patience_cnt := m.loss_patience_cnt + 1 }
    else
      { m with loss_patience_cnt := 0 }
  if patience < m1.loss_patience_cnt then
    { m1 with lr := max (m1.lr / 2) (1 / 1000000) }
  else m1

/-- The stop policy `dBSDE.early_stop` (lines 205-213, defaults `patience=5`,
`min_delta=0.05`): same trigger shape on the stop-patience counter; returns
the flag `stop_patience_cnt > patience` computed after the update. -/
def DBSDE.early_stop (m : DBSDE) (hist_loss : List ℚ) (patience : ℕ)
    (min_delta : ℚ) : DBSDE × Bool :=
  let m1 :=
    if 1 < hist_loss.length ∧
        |hist_loss.getD (hist_loss.length - 2) 0 -
            hist_loss.getD (hist_loss.length - 1) 0| /
          hist_loss.getD (hist_loss.length - 2) 0 < min_delta then
      { m with stop_patience_cnt := m.stop_patience_cnt + 1 }
    else
      { m with stop_patience_cnt := 0 }
  (m1, decide (patience < m1.stop_patience_cnt))

/-- The two schedule checks `custom_fit` runs at the end of an epoch
(lines 188 and 192). -/
inductive FitEvent
  | stopCheck
  | decayCheck
deriving DecidableEq

/-- What one epoch of `custom_fit` leaves behind: which schedule checks
actually executed (in execution order), whether the epoch broke the loop, the
converted `z0` diagnostic appended to `history["z0"]`, and the `self.lr`
appended to `history["lr"]`. -/
structure EpochRec where
  events : List FitEvent
  stopped : Bool
  z0 : Vec
  lr : ℚ
deriving DecidableEq

/-- The epoch loop of `dBSDE.custom_fit` (lines 144-195). The per-epoch
training and evaluation passes over the datasets (lines 145-151) are the
out-of-scope optimizer/dataset machinery (spec §1); the test-loss result
`self.test_loss.result()` the epoch ends with is abstracted as `lossOf epoch`.
Each epoch appends that loss to `hist_loss`, converts `z0` for the history
record, then runs `early_stop(hist_loss, patience=5, min_delta=0.01)` and
breaks if it fires — skipping everything after the `break`, including the
`lr_schedule(hist_loss, patience=3, min_delta=0.05)` call — and otherwise
runs `lr_schedule` and continues. The returned trace records, per epoch,
exactly which checks executed. -/
def fitEpochs (lossOf : ℕ → ℚ) : ℕ → ℕ → DBSDE → List ℚ →
    DBSDE × List ℚ × List EpochRec
  | 0, _, m, hist_loss => (m, hist_loss, [])
  | fuel + 1, epoch, m, hist_loss =>
      let hist1 := hist_loss ++ [lossOf epoch]
      let z0 := m.reshape_z0
      let es := m.early_stop hist1 5 (1/100)
      if es.2 then
        (es.1, hist1, [⟨[FitEvent.stopCheck], true, z0, m.lr⟩])
      else
        let m2 := es.1.lr_schedule hist1 3 (1/20)
        let m3 := { m2 with train_loss := m2.train_loss.reset,
                            test_loss := m2.test_loss.reset }
        let rest := fitEpochs lossOf fuel (epoch + 1) m3 hist1
        (rest.1, rest.2.1,
          ⟨[FitEvent.stopCheck, FitEvent.decayCheck], false, z0, m.lr⟩ :: rest.2.2)

/-- The trainer entry point `dBSDE.custom_fit` (lines 122-195) at the schedule-controller level:
run `epochs` epochs (or fewer on early stop) starting from an empty loss
history. -/
def DBSDE.custom_fit (m : DBSDE) (lossOf : ℕ → ℚ) (epochs : ℕ) :
    DBSDE × List ℚ × List EpochRec :=
  fitEpochs lossOf epochs 0 m []

/-- A sequence of `early_stop` calls at the `custom_fit` call site's arguments
(line 188: `patience=5, min_delta=0.01`), one per epoch, each on that epoch's
loss history. -/
def runStops (m : DBSDE) (hs : List (List ℚ)) : DBSDE :=
  hs.foldl (fun a h => (a.early_stop h 5 (1/100)).1) m

/-- A sequence of `lr_schedule` calls at the `custom_fit` call site's arguments
(line 192: `patience=3, min_delta=0.05`), one per epoch, each on that epoch's
loss history. -/
def runDecays (m : DBSDE) (hs : List (List ℚ)) : DBSDE :=
  hs.foldl (fun a h => a.lr_schedule h 3 (1/20)) m

/-- The spec's shared trigger condition, written from the spec's words: at
least two losses exist and `|loss[-2] - loss[-1]| / loss[-2]` is below the
policy's threshold. -/
def specPlateau (losses : List ℚ) (threshold : ℚ) : Prop :=
  1 < losses.length ∧
    |losses.getD (losses.length - 2) 0 - losses.getD (losses.length - 1) 0| /
      losses.getD (losses.length - 2) 0 < threshold

instance (losses : List ℚ) (threshold : ℚ) : Decidable (specPlateau losses threshold) := by
  unfold specPlateau; infer_instance

/-- The spec's description of the coupled-mode `z0` snapshot: the first row of
the Approximator applied to the zero-time feature batch (broadcast initial
state, time `0`, broadcast initial value), divided by `dimz`. -/
def z0FirstRowSpec (m : DBSDE) (batchSize : ℕ) : Vec :=
  (matDivNat
      (m.nn_z (featuresOf (List.replicate batchSize m.x0) 0
        (List.replicate batchSize ([m.y0] : Vec))))
      m.dimz).headD ([] : Vec)

/-- The spec's generic fallback for the diagnostic conversion: the matrix
product `squeeze(matmul(expand_dims(z0, 0), sigma_x(x0)))`. -/
def z0GenericConversion (m : DBSDE) : Vec :=
  squeezeRow (matMul m.z0 (m.bsde.sigma_x [m.x0]))

/-- A minimal concrete equation used to evaluate the embedding on explicit
inputs: one-dimensional noise and state, identity-like transitions
(`next_x` adds the increment, `next_y` keeps the value and reports the
control as `pi`), identity terminal condition, unit diffusion, and an
optional transform whose invocation fails. -/
def testEq (N : ℕ) : Equation :=
  { dim := 1
    dimx := 1
    num_time_interval := N
    total_time := 1
    delta_t := 1 / (N : ℚ)
    x_init := [0]
    psi := 0
    gamma := 0
    next_x := fun x dw => List.zipWith (fun (xr wr : Vec) => List.zipWith (· + ·) xr wr) x dw
    next_y := fun _ _ y z _ _ _ _ => (y, z)
    g_tf := fun _ y => y
    sigma_x := fun _ => [[1]]
    z_T_matmul_sigma_x := fun _ _ => Except.error "missing"  }

/-- A concrete model over `testEq N`: zero initial value, `zdx` mode, a
constant approximator sending every feature row to `[1]`. -/
def testModel (N : ℕ) (sep : Bool) : DBSDE :=
  dBSDE_init (testEq N) 0 true sep none none (fun mat => mat.map (fun _ => ([1] : Vec)))

/-- A zero noise sample with `N` intervals, batch size 2. -/
def testDw (N : ℕ) : List Mat := List.replicate N [[0], [0]]

/-! ## Scheduler lemmas -/

theorem early_stop_cnt (m : DBSDE) (h : List ℚ) (p : ℕ) (d : ℚ) :
    ((m.early_stop h p d).1).stop_patience_cnt =
      if specPlateau h d then m.stop_patience_cnt + 1 else 0 := by
  simp only [DBSDE.early_stop, specPlateau]
  split <;> simp

theorem early_stop_flag (m : DBSDE) (h : List ℚ) (p : ℕ) (d : ℚ) :
    (m.early_stop h p d).2 =
      decide (p < ((m.early_stop h p d).1).stop_patience_cnt) := rfl

theorem early_stop_frame (m : DBSDE) (h : List ℚ) (p : ℕ) (d : ℚ) :
    ((m.early_stop h p d).1).lr = m.lr ∧
    ((m.early_stop h p d).1).loss_patience_cnt = m.loss_patience_cnt ∧
    ((m.early_stop h p d).1).optimizer_lr = m.optimizer_lr := by
  simp only [DBSDE.early_stop]
  split <;> exact ⟨rfl, rfl, rfl⟩

theorem lr_schedule_cnt (m : DBSDE) (h : List ℚ) (p : ℕ) (d : ℚ) :
    (m.lr_schedule h p d).loss_patience_cnt =
      if specPlateau h d then m.loss_patience_cnt + 1 else 0 := by
  simp only [DBSDE.lr_schedule, specPlateau]
  split <;> split <;> simp

theorem lr_schedule_lr (m : DBSDE) (h : List ℚ) (p : ℕ) (d : ℚ) :
    (m.lr_schedule h p d).lr =
      if p < (m.lr_schedule h p d).loss_patience_cnt then
        max (m.lr / 2) (1 / 1000000)
      else m.lr := by
  simp only [DBSDE.lr_schedule]
  split <;> split <;> simp_all

theorem lr_schedule_frame (m : DBSDE) (h : List ℚ) (p : ℕ) (d : ℚ) :
    (m.lr_schedule h p d).stop_patience_cnt = m.stop_patience_cnt ∧
    (m.lr_schedule h p d).optimizer_lr = m.optimizer_lr ∧
    (m.lr_schedule h p d).y0 = m.y0 ∧
    (m.lr_schedule h p d).z0 = m.z0 ∧
    (m.lr_schedule h p d).nn_z = m.nn_z ∧
    (m.lr_schedule h p d).bsde = m.bsde := by
  simp only [DBSDE.lr_schedule]
  split <;> split <;> exact ⟨rfl, rfl, rfl, rfl, rfl, rfl⟩

theorem lr_schedule_floor_step (m : DBSDE) (h : List ℚ) (p : ℕ) (d : ℚ)
    (hm : 1 / 1000000 ≤ m.lr) : 1 / 1000000 ≤ (m.lr_schedule h p d).lr := by
  rw [lr_schedule_lr]
  split
  · exact le_max_right _ _
  · exact hm

theorem runDecays_floor (m : DBSDE) (hs : List (List ℚ))
    (hm : 1 / 1000000 ≤ m.lr) : 1 / 1000000 ≤ (runDecays m hs).lr := by
  induction hs generalizing m with
  | nil => exact hm
  | cons h t ih => exact ih _ (lr_schedule_floor_step _ _ _ _ hm)

theorem runStops_cnt_all (m : DBSDE) (hs : List (List ℚ))
    (hall : ∀ h ∈ hs, specPlateau h (1/100)) :
    (runStops m hs).stop_patience_cnt = m.stop_patience_cnt + hs.length := by
  induction hs generalizing m with
  | nil => rfl
  | cons h t ih =>
      have := ih ((m.early_stop h 5 (1/100)).1) (fun g hg => hall g (List.mem_cons_of_mem _ hg))
      rw [runStops] at this ⊢
      simp only [List.foldl_cons] at this ⊢
      rw [this, early_stop_cnt, if_pos (hall h (List.mem_cons_self _ _))]
      simp [List.length_cons]
      omega

theorem runStops_cnt_none (m : DBSDE) (hs : List (List ℚ))
    (hall : ∀ h ∈ hs, ¬ specPlateau h (1/100)) (hm : m.stop_patience_cnt = 0) :
    (runStops m hs).stop_patience_cnt = 0 := by
  induction hs generalizing m with
  | nil => exact hm
  | cons h t ih =>
      rw [runStops]
      simp only [List.foldl_cons]
      exact ih _ (fun g hg => hall g (List.mem_cons_of_mem _ hg))
        (by rw [early_stop_cnt, if_neg (hall h (List.mem_cons_self _ _))])

theorem runDecays_cnt_all (m : DBSDE) (hs : List (List ℚ))
    (hall : ∀ h ∈ hs, specPlateau h (1/20)) :
    (runDecays m hs).loss_patience_cnt = m.loss_patience_cnt + hs.length := by
  induction hs generalizing m with
  | nil => rfl
  | cons h t ih =>
      have := ih (m.lr_schedule h 3 (1/20)) (fun g hg => hall g (List.mem_cons_of_mem _ hg))
      rw [runDecays] at this ⊢
      simp only [List.foldl_cons] at this ⊢
      rw [this, lr_schedule_cnt, if_pos (hall h (List.mem_cons_self _ _))]
      simp [List.length_cons]
      omega

theorem runDecays_cnt_none (m : DBSDE) (hs : List (List ℚ))
    (hall : ∀ h ∈ hs, ¬ specPlateau h (1/20)) (hm : m.loss_patience_cnt = 0) :
    (runDecays m hs).loss_patience_cnt = 0 := by
  induction hs generalizing m with
  | nil => exact hm
  | cons h t ih =>
      rw [runDecays]
      simp only [List.foldl_cons]
      exact ih _ (fun g hg => hall g (List.mem_cons_of_mem _ hg))
        (by rw [lr_schedule_cnt, if_neg (hall h (List.mem_cons_self _ _))])

theorem fitEpochs_events (lossOf : ℕ → ℚ) (fuel epoch : ℕ) (m : DBSDE)
    (hist : List ℚ) (r : EpochRec)
    (hr : r ∈ (fitEpochs lossOf fuel epoch m hist).2.2) :
    r.events = if r.stopped then [FitEvent.stopCheck]
               else [FitEvent.stopCheck, FitEvent.decayCheck] := by
  induction fuel generalizing epoch m hist with
  | zero => simp [fitEpochs] at hr
  | succ n ih =>
      simp only [fitEpochs] at hr
      split at hr
      · simp only [List.mem_singleton] at hr
        subst hr
        rfl
      · simp only [List.mem_cons] at hr
        rcases hr with hr | hr
        · subst hr
          rfl
        · exact ih _ _ _ hr

/-! ## Claims C3, C4, C5 -/

/-- C3 (counterexample): with a constant loss history every epoch is a
plateau, so on the seventh epoch the early-stop check fires and the loop
breaks before `lr_schedule`; that epoch's record shows only the stop check
executed, refuting the claim that the decay check is evaluated in every
epoch — in particular in an epoch in which the early-stop check fires. -/
theorem claim3_counterexample :
    ¬ (∀ r ∈ ((testModel 2 true).custom_fit (fun _ => 1) 10).2.2,
        r.events = [FitEvent.stopCheck, FitEvent.decayCheck]) := by
  decide

/-- C3 (amended): in every epoch of the training loop the early-stop check
runs first and the learning-rate-decay check runs after it — except in an
epoch in which the early-stop check fires, where the loop breaks immediately
and the decay check is not evaluated at all: each epoch's event record is
`[stopCheck, decayCheck]` when the epoch did not stop and just `[stopCheck]`
when it did. -/
theorem claim3_amended_checks_order (m : DBSDE) (lossOf : ℕ → ℚ) (epochs : ℕ)
    (r : EpochRec) (hr : r ∈ (m.custom_fit lossOf epochs).2.2) :
    r.events = if r.stopped then [FitEvent.stopCheck]
               else [FitEvent.stopCheck, FitEvent.decayCheck] :=
  fitEpochs_events lossOf epochs 0 m [] r hr

theorem claim3_witness :
    (⟨[FitEvent.stopCheck, FitEvent.decayCheck], false, [0], 1/100⟩ : EpochRec).events
      = [FitEvent.stopCheck, FitEvent.decayCheck] := by
  exact claim3_amended_checks_order (testModel 2 true) (fun _ => 1) 1
    ⟨[FitEvent.stopCheck, FitEvent.decayCheck], false, [0], 1/100⟩ (by decide)

/-- C4: the learning rate maintained by `lr_schedule` (called with
`patience=3`, `min_delta=0.05` as at line 192) never drops below `1e-6`: a
single call replaces `lr` by `max(lr/2, 1e-6)` exactly when the updated decay
counter exceeds 3 and leaves it unchanged otherwise, one call preserves
`lr ≥ 1e-6`, and so does any sequence of decay events, for every loss
history. -/
theorem claim4_lr_floor (m : DBSDE) (h : List ℚ) (hs : List (List ℚ)) :
    ((m.lr_schedule h 3 (1/20)).lr =
      if 3 < (m.lr_schedule h 3 (1/20)).loss_patience_cnt then
        max (m.lr / 2) (1 / 1000000)
      else m.lr)
    ∧ (1 / 1000000 ≤ m.lr → 1 / 1000000 ≤ (m.lr_schedule h 3 (1/20)).lr)
    ∧ (1 / 1000000 ≤ m.lr → 1 / 1000000 ≤ (runDecays m hs).lr) :=
  ⟨lr_schedule_lr m h 3 (1/20), lr_schedule_floor_step m h 3 (1/20),
    runDecays_floor m hs⟩

theorem claim4_witness :
    1 / 1000000 ≤ (runDecays (testModel 2 true) (List.replicate 40 [1, 1])).lr :=
  (claim4_lr_floor (testModel 2 true) [1, 1] (List.replicate 40 [1, 1])).2.2
    (by decide)

/-- C5: for the early-stop policy (threshold `0.01`, patience 5) and the
decay policy (threshold `0.05`, patience 3) as configured at the call sites,
the counter after a call is the old counter plus one exactly when at least two
losses exist and `|loss[-2]-loss[-1]|/loss[-2]` is below the policy's
threshold (`specPlateau`), and 0 otherwise; early stop is signalled exactly
when the updated stop counter exceeds 5; over a run, epochs that all avoid the
plateau condition leave a zero counter at 0, and `N` consecutive plateau
epochs starting from 0 leave the counter at `N`. -/
theorem claim5_patience_counters (m : DBSDE) (h : List ℚ) (hs : List (List ℚ)) :
    (((m.early_stop h 5 (1/100)).1).stop_patience_cnt =
        if specPlateau h (1/100) then m.stop_patience_cnt + 1 else 0)
    ∧ ((m.early_stop h 5 (1/100)).2 = true ↔
        5 < ((m.early_stop h 5 (1/100)).1).stop_patience_cnt)
    ∧ ((m.lr_schedule h 3 (1/20)).loss_patience_cnt =
        if specPlateau h (1/20) then m.loss_patience_cnt + 1 else 0)
    ∧ ((∀ g ∈ hs, ¬ specPlateau g (1/100)) → m.stop_patience_cnt = 0 →
        (runStops m hs).stop_patience_cnt = 0)
    ∧ ((∀ g ∈ hs, ¬ specPlateau g (1/20)) → m.loss_patience_cnt = 0 →
        (runDecays m hs).loss_patience_cnt = 0)
    ∧ ((∀ g ∈ hs, specPlateau g (1/100)) → m.stop_patience_cnt = 0 →
        (runStops m hs).stop_patience_cnt = hs.length)
    ∧ ((∀ g ∈ hs, specPlateau g (1/20)) → m.loss_patience_cnt = 0 →
        (runDecays m hs).loss_patience_cnt = hs.length) := by
  refine ⟨early_stop_cnt m h 5 (1/100), ?_, lr_schedule_cnt m h 3 (1/20),
    runStops_cnt_none m hs, runDecays_cnt_none m hs, ?_, ?_⟩
  · rw [early_stop_flag]
    exact decide_eq_true_iff
  · intro hall hz
    rw [runStops_cnt_all m hs hall, hz, Nat.zero_add]
  · intro hall hz
    rw [runDecays_cnt_all m hs hall, hz, Nat.zero_add]

theorem claim5_witness :
    (runStops (testModel 2 true) [[1, 1], [1, 1], [1, 1]]).stop_patience_cnt = 3 := by
  have h := (claim5_patience_counters (testModel 2 true) [1]
    [[1, 1], [1, 1], [1, 1]]).2.2.2.2.2.1 (by decide) (by decide)
  simpa using h

/-! ## Forward-pass lemmas -/

theorem foldl_callStep_x_len (bsde : Equation) (nn : Mat → Mat) (dimz : ℕ)
    (dt : ℚ) (lb ub : Option ℚ) (zdx : Bool) (dws : List Mat) (l : List ℕ)
    (st : StepState) :
    ((l.foldl (callStep bsde nn dimz dt lb ub zdx dws true) st).hist.x.length)
      = st.hist.x.length + l.length := by
  induction l generalizing st with
  | nil => simp
  | cons a t ih =>
      rw [List.foldl_cons, ih]
      simp [callStep]
      omega

theorem foldl_callStep_y_len (bsde : Equation) (nn : Mat → Mat) (dimz : ℕ)
    (dt : ℚ) (lb ub : Option ℚ) (zdx : Bool) (dws : List Mat) (l : List ℕ)
    (st : StepState) :
    ((l.foldl (callStep bsde nn dimz dt lb ub zdx dws true) st).hist.y.length)
      = st.hist.y.length + l.length := by
  induction l generalizing st with
  | nil => simp
  | cons a t ih =>
      rw [List.foldl_cons, ih]
      simp [callStep]
      omega

theorem foldl_callStep_z_len (bsde : Equation) (nn : Mat → Mat) (dimz : ℕ)
    (dt : ℚ) (lb ub : Option ℚ) (zdx : Bool) (dws : List Mat) (l : List ℕ)
    (st : StepState) :
    ((l.foldl (callStep bsde nn dimz dt lb ub zdx dws true) st).hist.z.length)
      = st.hist.z.length + l.length := by
  induction l generalizing st with
  | nil => simp
  | cons a t ih =>
      rw [List.foldl_cons, ih]
      simp [callStep]
      omega

theorem foldl_callStep_t_len (bsde : Equation) (nn : Mat → Mat) (dimz : ℕ)
    (dt : ℚ) (lb ub : Option ℚ) (zdx : Bool) (dws : List Mat) (l : List ℕ)
    (st : StepState) :
    ((l.foldl (callStep bsde nn dimz dt lb ub zdx dws true) st).hist.t.length)
      = st.hist.t.length + l.length := by
  induction l generalizing st with
  | nil => simp
  | cons a t ih =>
      rw [List.foldl_cons, ih]
      simp [callStep]
      omega

/-! ## Claims C1, C2 -/

/-- C1 (counterexample): with `num_time_interval = 2` a recorded forward
pass stores 2 state entries and 2 time entries — not the 3 (`N+1`) the claim
demands — because the terminal state advance of line 102 happens after the
last recording point and the loop records times only up to `t = N-1`. -/
theorem claim1_counterexample :
    ¬ (((testModel 2 true).call (testDw 2) 2 true).1.hist.x.length = 3 ∧
       ((testModel 2 true).call (testDw 2) 2 true).1.hist.y.length = 3 ∧
       ((testModel 2 true).call (testDw 2) 2 true).1.hist.z.length = 2 ∧
       ((testModel 2 true).call (testDw 2) 2 true).1.hist.t.length = 3) := by
  decide

/-- C1 (amended): for every `num_time_interval N ≥ 1`, a forward pass with
recording enabled produces a trajectory with exactly `N` state entries, `N+1`
value entries, `N` control entries, and `N` time entries. -/
theorem claim1_amended_trajectory_lengths (m : DBSDE) (dws : List Mat) (b : ℕ)
    (hN : 1 ≤ m.num_time_interval) :
    ((m.call dws b true).1).hist.x.length = m.num_time_interval ∧
    ((m.call dws b true).1).hist.y.length = m.num_time_interval + 1 ∧
    ((m.call dws b true).1).hist.z.length = m.num_time_interval ∧
    ((m.call dws b true).1).hist.t.length = m.num_time_interval := by
  refine ⟨?_, ?_, ?_, ?_⟩ <;>
  · simp only [DBSDE.call, foldl_callStep_x_len, foldl_callStep_y_len,
      foldl_callStep_z_len, foldl_callStep_t_len, List.length_range']
    simp
    omega

theorem claim1_witness :
    ((testModel 3 true).call (testDw 3) 2 true).1.hist.x.length = 3 ∧
    ((testModel 3 true).call (testDw 3) 2 true).1.hist.y.length = 4 ∧
    ((testModel 3 true).call (testDw 3) 2 true).1.hist.z.length = 3 ∧
    ((testModel 3 true).call (testDw 3) 2 true).1.hist.t.length = 3 :=
  claim1_amended_trajectory_lengths (testModel 3 true) (testDw 3) 2 (by decide)

/-- C2 (code bug): at `num_time_interval = 1` the forward loop body never
runs, so the Python local `z` (first bound at line 91, inside the loop) is
unbound when `return y, x, z` (line 103) executes, and the call raises
`UnboundLocalError` instead of returning a final (value, state, control)
triple — the embedding returns `none`. The initialization and the single
value-update step do execute: the recorded trajectory holds exactly two value
entries, and no intermediate control is recomputed (one control entry, from
initialization only). -/
theorem claim2_n1_unbound_control :
    ((testModel 1 true).call (testDw 1) 2 false).2 = none ∧
    ((testModel 1 true).call (testDw 1) 2 true).1.hist.y.length = 2 ∧
    ((testModel 1 true).call (testDw 1) 2 true).1.hist.z.length = 1 := by
  decide

/-! ## Claims C6, C7, C8, C9, C10 -/

/-- C6: in coupled `InitialControl` mode (`separate_z0 = false`), after one
forward pass on a batch of size at least 2, the `InitialControl` parameter
slot holds exactly the first row of the freshly computed batch control output
— the approximator applied to the zero-time features `(state, 0, value)` and
divided by `dimz` — not an average over the batch. -/
theorem claim6_coupled_z0_snapshot (m : DBSDE) (dws : List Mat) (b : ℕ)
    (test : Bool) (hsep : m.separate_z0 = false) (_hb : 2 ≤ b) :
    ((m.call dws b test).1).z0 = [z0FirstRowSpec m b] := by
  simp only [DBSDE.call, z0FirstRowSpec, hsep]
  simp

theorem claim6_witness :
    (testModel 2 false).separate_z0 = false ∧ 2 ≤ 2 ∧
    ((testModel 2 false).call (testDw 2) 2 false).1.z0 =
      [z0FirstRowSpec (testModel 2 false) 2] :=
  ⟨by decide, by decide,
    claim6_coupled_z0_snapshot (testModel 2 false) (testDw 2) 2 false
      (by decide) (by decide)⟩

theorem foldl_callStep_core (bsde : Equation) (nn : Mat → Mat) (dimz : ℕ)
    (dt : ℚ) (lb ub : Option ℚ) (zdx : Bool) (dws : List Mat) (test : Bool)
    (l : List ℕ) (st1 st2 : StepState)
    (hx : st1.x = st2.x) (hy : st1.y = st2.y) (hz : st1.z = st2.z)
    (hdw : st1.dw = st2.dw) :
    (l.foldl (callStep bsde nn dimz dt lb ub zdx dws test) st1).x
      = (l.foldl (callStep bsde nn dimz dt lb ub zdx dws test) st2).x
    ∧ (l.foldl (callStep bsde nn dimz dt lb ub zdx dws test) st1).y
      = (l.foldl (callStep bsde nn dimz dt lb ub zdx dws test) st2).y
    ∧ (l.foldl (callStep bsde nn dimz dt lb ub zdx dws test) st1).z
      = (l.foldl (callStep bsde nn dimz dt lb ub zdx dws test) st2).z
    ∧ (l.foldl (callStep bsde nn dimz dt lb ub zdx dws test) st1).dw
      = (l.foldl (callStep bsde nn dimz dt lb ub zdx dws test) st2).dw := by
  induction l generalizing st1 st2 with
  | nil => exact ⟨hx, hy, hz, hdw⟩
  | cons a t ih =>
      simp only [List.foldl_cons]
      exact ih _ _ (by simp [callStep, hx, hy, hdw]) (by simp [callStep, hx, hy, hdw])
        (by simp [callStep, hx, hy, hdw]) (by simp [callStep, hx, hy, hdw])

theorem callStep_out_eq (bsde : Equation) (nn : Mat → Mat) (dimz : ℕ)
    (dt : ℚ) (lb ub : Option ℚ) (zdx : Bool) (dws : List Mat) (test : Bool)
    (l : List ℕ) (st1 st2 : StepState)
    (hx : st1.x = st2.x) (hy : st1.y = st2.y) (hz : st1.z = st2.z)
    (hdw : st1.dw = st2.dw) :
    (l.foldl (callStep bsde nn dimz dt lb ub zdx dws test) st1).z.map
      (fun z => ((l.foldl (callStep bsde nn dimz dt lb ub zdx dws test) st1).y,
        bsde.next_x (l.foldl (callStep bsde nn dimz dt lb ub zdx dws test) st1).x
          (l.foldl (callStep bsde nn dimz dt lb ub zdx dws test) st1).dw, z))
    = (l.foldl (callStep bsde nn dimz dt lb ub zdx dws test) st2).z.map
      (fun z => ((l.foldl (callStep bsde nn dimz dt lb ub zdx dws test) st2).y,
        bsde.next_x (l.foldl (callStep bsde nn dimz dt lb ub zdx dws test) st2).x
          (l.foldl (callStep bsde nn dimz dt lb ub zdx dws test) st2).dw, z)) := by
  obtain ⟨ex, ey, ez, edw⟩ :=
    foldl_callStep_core bsde nn dimz dt lb ub zdx dws test l st1 st2 hx hy hz hdw
  rw [ex, ey, ez, edw]

/-- C7: the forward pass is a deterministic function of the model's
parameters and the supplied noise sample: running `call` a second time, on the
model object the first pass returned (so with identical `InitialState`,
`InitialValue`, `InitialControl`, approximator parameters, and the same noise),
produces exactly the same (value, state, control) terminal output — the only
state the first pass may have touched (the coupled-mode `z0` snapshot and the
recorded history) does not feed back into the output. -/
theorem claim7_terminal_determinism (m : DBSDE) (dws : List Mat) (b : ℕ)
    (test : Bool) :
    (((m.call dws b test).1).call dws b test).2 = (m.call dws b test).2 := by
  cases hsep : m.separate_z0 <;>
    simp [DBSDE.call, hsep] <;>
    exact callStep_out_eq _ _ _ _ _ _ _ _ _ _ _ _ rfl rfl rfl rfl

/-- C8: in both the training step and the test step, whenever the forward
pass returns a terminal triple, the recorded loss is the squared error between
the external terminal condition applied to the predicted terminal value and
that same predicted value: `mean_squared_error(g_tf(0, y_N), y_N)`. -/
theorem claim8_terminal_loss (m : DBSDE) (dws : List Mat) (b : ℕ)
    (pred xx zz : Mat) :
    ((m.call dws b false).2 = some (pred, xx, zz) →
      (m.train_step dws b).2.1 =
        some (mean_squared_error (m.bsde.g_tf 0 pred) pred))
    ∧ ((m.call dws b true).2 = some (pred, xx, zz) →
      (m.test_step dws b).2 =
        some (mean_squared_error (m.bsde.g_tf 0 pred) pred)) := by
  constructor <;> intro hc <;>
    simp [DBSDE.train_step, DBSDE.test_step, hc]

theorem claim8_witness :
    ((testModel 2 true).train_step (testDw 2) 2).2.1 =
      some (mean_squared_error
        ((testModel 2 true).bsde.g_tf 0 [[0], [0]]) [[0], [0]]) :=
  (claim8_terminal_loss (testModel 2 true) (testDw 2) 2
    [[0], [0]] [[0], [0]] [[1], [1]]).1 (by decide)

/-- C9: in the per-epoch `z0` diagnostic conversion of `custom_fit` (`zdx`
mode with a `z0` of width `dimx`), when the equation's optional
`z_T_matmul_sigma_x` transform fails, the converted control is the generic
matrix product `squeeze(matmul(expand_dims(z0, 0), sigma_x(x0)))`, and the
error is never surfaced: every epoch record of a `custom_fit` run still
carries the fallback value. -/
theorem claim9_fallback_conversion (m : DBSDE) (e : String)
    (hz : m.zdx = true)
    (hw : (m.z0.headD ([] : Vec)).length = m.dimx)
    (he : m.bsde.z_T_matmul_sigma_x m.z0 (m.bsde.sigma_x [m.x0]) =
      Except.error e) :
    m.reshape_z0 = z0GenericConversion m
    ∧ ∀ lossOf : ℕ → ℚ, ∀ r ∈ (m.custom_fit lossOf 1).2.2,
        r.z0 = z0GenericConversion m := by
  have h1 : m.reshape_z0 = z0GenericConversion m := by
    unfold DBSDE.reshape_z0
    rw [if_pos (⟨hz, hw⟩ : m.zdx = true ∧ (m.z0.headD ([] : Vec)).length = m.dimx)]
    simp only []
    rw [he]
    rfl
  refine ⟨h1, ?_⟩
  intro lossOf r hr
  simp only [DBSDE.custom_fit, fitEpochs] at hr
  split at hr <;> simp_all

theorem claim9_witness :
    (testModel 2 true).reshape_z0 = z0GenericConversion (testModel 2 true) :=
  (claim9_fallback_conversion (testModel 2 true) "missing"
    (by decide) (by decide) (by rfl)).1

theorem call_model_optimizer_lr (m : DBSDE) (dws : List Mat) (b : ℕ)
    (test : Bool) :
    ((m.call dws b test).1).optimizer_lr = m.optimizer_lr := by
  cases hsep : m.separate_z0 <;> simp only [DBSDE.call, hsep] <;> simp

theorem runDecays_optimizer_lr (m : DBSDE) (hs : List (List ℚ)) :
    (runDecays m hs).optimizer_lr = m.optimizer_lr := by
  induction hs generalizing m with
  | nil => rfl
  | cons h t ih =>
      calc (runDecays m (h :: t)).optimizer_lr
          = (runDecays (m.lr_schedule h 3 (1/20)) t).optimizer_lr := rfl
        _ = (m.lr_schedule h 3 (1/20)).optimizer_lr := ih _
        _ = m.optimizer_lr := (lr_schedule_frame m h 3 (1/20)).2.1

/-- C10: a decay event in `lr_schedule` mutates only the `self.lr`
attribute (and the decay counter): the learning rate stored inside the Adam
optimizer — fixed at `0.01` at construction, when the optimizer is built from
the then-current `self.lr` — is untouched by any number of decay events, and
the optimizer step inside `train_step` applies that constructed rate, so the
step size actually applied to the trainable parameters is `0.01` no matter how
often `lr_schedule` has halved `self.lr`. -/
theorem claim10_optimizer_lr_frame :
    (∀ (eq : Equation) (y0 : ℚ) (zdx sep : Bool) (lb ub : Option ℚ)
        (nn : Mat → Mat),
      (dBSDE_init eq y0 zdx sep lb ub nn).optimizer_lr = 1/100 ∧
      (dBSDE_init eq y0 zdx sep lb ub nn).lr = 1/100)
    ∧ (∀ (m : DBSDE) (h : List ℚ) (p : ℕ) (d : ℚ),
        (m.lr_schedule h p d).optimizer_lr = m.optimizer_lr ∧
        (m.lr_schedule h p d).y0 = m.y0 ∧
        (m.lr_schedule h p d).z0 = m.z0 ∧
        (m.lr_schedule h p d).nn_z = m.nn_z ∧
        (m.lr_schedule h p d).stop_patience_cnt = m.stop_patience_cnt)
    ∧ (∀ (m : DBSDE) (hs : List (List ℚ)),
        (runDecays m hs).optimizer_lr = m.optimizer_lr)
    ∧ (∀ (m : DBSDE) (dws : List Mat) (b : ℕ),
        (m.train_step dws b).2.2 = m.optimizer_lr ∧
        ((m.train_step dws b).1).optimizer_lr = m.optimizer_lr)
    ∧ (∀ (eq : Equation) (y0 : ℚ) (zdx sep : Bool) (lb ub : Option ℚ)
        (nn : Mat → Mat) (hs : List (List ℚ)) (dws : List Mat) (b : ℕ),
        ((runDecays (dBSDE_init eq y0 zdx sep lb ub nn) hs).train_step
          dws b).2.2 = 1/100) := by
  refine ⟨fun eq y0 zdx sep lb ub nn => ⟨rfl, rfl⟩, ?_, ?_, ?_, ?_⟩
  · intro m h p d
    have hf := lr_schedule_frame m h p d
    exact ⟨hf.2.1, hf.2.2.1, hf.2.2.2.1, hf.2.2.2.2.1, hf.1⟩
  · exact runDecays_optimizer_lr
  · intro m dws b
    constructor
    · simp only [DBSDE.train_step]
      cases (m.call dws b false).2 <;> rfl
    · simp only [DBSDE.train_step]
      cases hc : (m.call dws b false).2 with
      | none => simpa [hc] using call_model_optimizer_lr m dws b false
      | some r => simpa [hc] using call_model_optimizer_lr m dws b false
  · intro eq y0 zdx sep lb ub nn hs dws b
    have h1 : ((runDecays (dBSDE_init eq y0 zdx sep lb ub nn) hs).train_step
        dws b).2.2 = (runDecays (dBSDE_init eq y0 zdx sep lb ub nn) hs).optimizer_lr := by
      simp only [DBSDE.train_step]
      cases ((runDecays (dBSDE_init eq y0 zdx sep lb ub nn) hs).call dws b false).2 <;> rfl
    rw [h1, runDecays_optimizer_lr]
    rfl
